import Mathlib

/-
Verification of the assertions-mate hint-resolution and validation
orchestration subsystem.

The definitions below are a shallow embedding of the Python sources:
  src/assertions_mate/__init__.py        (hint model and resolver)
  src/assertions_mate/error_models.py    (Problem Report taxonomy)
  src/assertions_mate/cql2_validator.py  (filter validator)
  src/assertions_mate/rego_validator.py  (policy validator)
  src/assertions_mate/cli.py             (orchestrator `_scan_workflow`)

Python exceptions are modelled with `Except String`; pydantic field
validation (required fields, `constr` and `conint` bounds, unions) is
modelled explicitly; the external evaluation engines (pygeofilter,
regopy, cwl2ogc) are abstracted as deterministic function parameters,
which is the contract the spec assigns to them.
-/

namespace AssertionsMate

/-- JSON-like values, the shape of raw hint-record fields and schemas. -/
inductive JValue where
  | str (s : String)
  | num (n : Int)
  | boolean (b : Bool)
  | null
  | arr (xs : List JValue)
  | obj (fields : List (String × JValue))
deriving Repr

/-- A raw hint record: a Python dict, modelled as an association list
(first occurrence of a key wins, mirroring dict key uniqueness). -/
abbrev Record := List (String × JValue)

/-- Dict key lookup, first matching key. -/
def lookupField : Record → String → Option JValue
  | [], _ => none
  | (k, v) :: rest, key => if k = key then some v else lookupField rest key

/-! ## Problem Report model (error_models.py)

`ErrorDetail` and `ProblemDetails` are pydantic models whose string
fields carry `constr(max_length=...)` bounds and whose construction
raises a ValidationError when a bound is violated; constructors are
therefore `Except`-valued. -/

/-- ErrorDetail (error_models.py lines 36-55): one violation entry. -/
structure ErrorDetail where
  detail : String
  pointer : Option String := none
  parameter : Option String := none
  header : Option String := none
  code : Option String := none
deriving Repr, DecidableEq

/-- Bound check for an optional constrained string field. -/
def optLenOk : Option String → Nat → Bool
  | none, _ => true
  | some s, n => s.length ≤ n

/-- Construction of `ErrorDetail(pointer=..., detail=...)` as the two
validators perform it: `detail` is constr(max_length=4096), `pointer`
constr(max_length=1024); a violated bound raises a ValidationError. -/
def mkErrorDetail (pointer : Option String) (detail : String) : Except String ErrorDetail :=
  if detail.length ≤ 4096 ∧ optLenOk pointer 1024 = true then
    .ok { detail := detail, pointer := pointer }
  else
    .error "ValidationError: ErrorDetail"

/-- ProblemDetails (error_models.py lines 119-147). The `type` enum is
modelled by its URI string value; `instance` is renamed `instance_`
because `instance` is a Lean keyword. -/
structure ProblemDetails where
  type : Option String := none
  status : Option Int := none
  title : Option String := none
  detail : String
  instance_ : Option String := none
  code : Option String := none
  errors : Option (List ErrorDetail) := none
deriving Repr, DecidableEq

/-- URI constant fixed by the BusinessRuleViolation subclass. -/
def businessRuleViolationType : String :=
  "https://problems-registry.smartbear.com/business-rule-violation"

/-- Field values the BusinessRuleViolation subclass (error_models.py
lines 188-208) fixes via Literal defaults. -/
def businessRuleViolationBase : ProblemDetails :=
  { type := some businessRuleViolationType
  , status := some 422
  , title := some "Business Rule Violation"
  , detail := "The request body is invalid and not meeting business rules." }

/-- Construction of `BusinessRuleViolation(errors=...)`: the `errors`
field has max_length=1000, so an oversized list raises. -/
def BusinessRuleViolation (errors : List ErrorDetail) : Except String ProblemDetails :=
  if errors.length ≤ 1000 then
    .ok { businessRuleViolationBase with errors := some errors }
  else
    .error "ValidationError: errors too long"

/-! ## Pydantic validation of records against the error models

Needed because the resolver can reach `ProblemDetails` through its
globals lookup (it is imported at module level in __init__.py). -/

/-- The `Type` enum values of error_models.py lines 58-116. -/
def problemTypeValues : List String :=
  [ "about:blank"
  , "https://problems-registry.smartbear.com/already-exists"
  , "https://problems-registry.smartbear.com/bad-request"
  , "https://problems-registry.smartbear.com/business-rule-violation"
  , "https://problems-registry.smartbear.com/forbidden"
  , "https://problems-registry.smartbear.com/invalid-body-property-format"
  , "https://problems-registry.smartbear.com/invalid-body-property-value"
  , "https://problems-registry.smartbear.com/invalid-parameters"
  , "https://problems-registry.smartbear.com/invalid-request-header-format"
  , "https://problems-registry.smartbear.com/invalid-request-parameter-format"
  , "https://problems-registry.smartbear.com/invalid-request-parameter-value"
  , "https://problems-registry.smartbear.com/license-cancelled"
  , "https://problems-registry.smartbear.com/license-expired"
  , "https://problems-registry.smartbear.com/missing-body-property"
  , "https://problems-registry.smartbear.com/missing-request-header"
  , "https://problems-registry.smartbear.com/not-found"
  , "https://problems-registry.smartbear.com/server-error"
  , "https://problems-registry.smartbear.com/service-unavailable"
  , "https://problems-registry.smartbear.com/unauthorized"
  , "https://problems-registry.smartbear.com/validation-error" ]

/-- Validate an optional constrained-string field of a record:
absent or null yields `none`; a short-enough string is accepted;
anything else is a validation failure. -/
def validateOptStrField (r : Record) (k : String) (maxLen : Nat) : Option (Option String) :=
  match lookupField r k with
  | none => some none
  | some .null => some none
  | some (.str s) => if s.length ≤ maxLen then some (some s) else none
  | some _ => none

/-- Validate a JSON value as an ErrorDetail record. -/
def validateErrorDetail (v : JValue) : Option ErrorDetail :=
  match v with
  | .obj r =>
    match lookupField r "detail" with
    | some (.str d) =>
      if d.length ≤ 4096 then
        match validateOptStrField r "pointer" 1024
            , validateOptStrField r "parameter" 1024
            , validateOptStrField r "header" 1024
            , validateOptStrField r "code" 50 with
        | some p, some pa, some h, some c =>
          some { detail := d, pointer := p, parameter := pa, header := h, code := c }
        | _, _, _, _ => none
      else none
    | _ => none
  | _ => none

/-- Validate the optional `type` enum field. -/
def validateTypeField (r : Record) : Option (Option String) :=
  match lookupField r "type" with
  | none => some none
  | some .null => some none
  | some (.str s) => if s ∈ problemTypeValues then some (some s) else none
  | some _ => none

/-- Validate the optional `status` field (conint ge=100 le=599). -/
def validateStatusField (r : Record) : Option (Option Int) :=
  match lookupField r "status" with
  | none => some none
  | some .null => some none
  | some (.num n) => if 100 ≤ n ∧ n ≤ 599 then some (some n) else none
  | some _ => none

/-- Validate the optional `errors` field (list of ErrorDetail, max 1000). -/
def validateErrorsField (r : Record) : Option (Option (List ErrorDetail)) :=
  match lookupField r "errors" with
  | none => some none
  | some .null => some none
  | some (.arr xs) =>
    match xs.mapM validateErrorDetail with
    | some ds => if ds.length ≤ 1000 then some (some ds) else none
    | none => none
  | some _ => none

/-- Pydantic construction of `ProblemDetails(**record)`: `detail` is
required; the optional fields carry their constr/conint/enum bounds. -/
def validateProblemDetails (r : Record) : Option ProblemDetails :=
  match lookupField r "detail" with
  | some (.str d) =>
    if d.length ≤ 4096 then
      match validateTypeField r, validateStatusField r
          , validateOptStrField r "title" 1024
          , validateOptStrField r "instance" 1024
          , validateOptStrField r "code" 50
          , validateErrorsField r with
      | some ty, some st, some ti, some inst, some co, some er =>
        some { type := ty, status := st, title := ti, detail := d
             , instance_ := inst, code := co, errors := er }
      | _, _, _, _, _, _ => none
    else none
  | _ => none

/-! ## CQL2 query model (__init__.py lines 103-106) -/

/-- The value of a Cql2Query `cql2` field at validator level: the
source validator branches on isinstance str / isinstance dict / other,
so a third shape is representable; `other` carries the rendering of
`type(filter.cql2)` used in the diagnostic message. Pydantic-validated
queries (cql2 : str | Mapping) never inhabit `other`. -/
inductive Cql2Value where
  | text (s : String)
  | json (fields : Record)
  | other (typeName : String)
deriving Repr

/-- Cql2Query pydantic model: id, cql2, message, all required. -/
structure Cql2Query where
  id : String
  cql2 : Cql2Value
  message : String
deriving Repr

/-- True unless the value has the shape pydantic rejects for
`cql2 : str | Mapping`. -/
def Cql2Value.pydanticValid : Cql2Value → Bool
  | .other _ => false
  | _ => true

/-- Pydantic construction of a Cql2Query from a JSON value: must be a
mapping with string `id`, string-or-mapping `cql2`, string `message`. -/
def validateCql2Query (v : JValue) : Option Cql2Query :=
  match v with
  | .obj r =>
    match lookupField r "id", lookupField r "cql2", lookupField r "message" with
    | some (.str i), some c, some (.str m) =>
      match c with
      | .str s => some { id := i, cql2 := .text s, message := m }
      | .obj f => some { id := i, cql2 := .json f, message := m }
      | _ => none
    | _, _, _ => none
  | _ => none

/-! ## Workflow and hint resolver (__init__.py lines 132-169)

The resolver receives a workflow object (from the excluded CWL loader)
whose `hints` attribute is an optional list; list entries are either
dict records or opaque pass-through values. -/

/-- One element of `workflow.hints`: either a dict (isinstance check at
__init__.py line 161) or some other pass-through value. -/
inductive RawHintEntry where
  | record (fields : Record)
  | passthrough
deriving Repr

/-- The workflow object surface the resolver consumes. -/
structure Workflow where
  id : String
  class_ : String
  cwlVersion : String
  hints : Option (List RawHintEntry) := none
deriving Repr

/-- What `_get_assertion_hint_by_name` can return besides None: the
`globals()[hint_kind_name]` lookup reaches every module-level name of
__init__.py, and the try/except swallows any constructor failure.
These are the module globals whose call with
`(parent_workflow=..., **hint)` can succeed: the three concrete hint
classes, the nested model `Cql2Query`, and the imported
`ProblemDetails`. Every other global raises on such a call and is
caught and dropped: the abstract bases `AssertionHint` and
`BaseValidator` raise a TypeError from ABCMeta (pydantic's
ModelMetaclass subclasses ABCMeta, so the abstract methods annotation
and validator block instantiation), `BaseModel` refuses direct
instantiation (PydanticUserError), and the remaining globals (ABC,
abstractmethod, logger, BaseCWLtypes2OGCConverter, typing aliases, the
module functions) raise a TypeError because none of them accepts the
always-present `class` keyword. -/
inductive ResolvedObj where
  | jsonSchemaHint (parent : Option Workflow) (json_schema : Record)
  | regoPolicyHint (parent : Option Workflow) (module : String) (queries : List String)
  | cql2FilterHint (parent : Option Workflow) (queries : List Cql2Query)
  | cql2QueryObj (q : Cql2Query)
  | problemDetailsObj (pd : ProblemDetails)
deriving Repr

/-- Pydantic validation of a `queries : List[str]` field value: every
element must be a string, any other element fails the whole list. -/
def validateStrList : List JValue → Option (List String)
  | [] => some []
  | .str s :: rest => (validateStrList rest).map (s :: ·)
  | _ :: _ => none

/-- Pydantic validation of a `queries : List[Cql2Query]` field value. -/
def validateCql2QueryList : List JValue → Option (List Cql2Query)
  | [] => some []
  | v :: rest =>
    match validateCql2Query v, validateCql2QueryList rest with
    | some q, some qs => some (q :: qs)
    | _, _ => none

/-- Model of `hint_kind = globals()[name]; hint_kind(parent_workflow=...,
**hint)` under the try/except of __init__.py lines 145-150: `none`
covers the KeyError of an unknown global as well as any exception the
call raises, all caught there: a pydantic ValidationError, the ABCMeta
TypeError of the abstract classes AssertionHint and BaseValidator
(pydantic's ModelMetaclass subclasses ABCMeta), the PydanticUserError
of a direct BaseModel call, and the TypeError of the non-class
globals, which do not accept the `class` keyword. A record carrying
its own `parent_workflow` key makes every call fail (duplicate
keyword argument), checked first. -/
def tryConstruct (name : String) (parent : Option Workflow) (r : Record) : Option ResolvedObj :=
  if (lookupField r "parent_workflow").isSome then none
  else if name = "JSONSchemaHint" then
    match lookupField r "json_schema" with
    | none => some (.jsonSchemaHint parent [])
    | some (.obj fields) => some (.jsonSchemaHint parent fields)
    | some _ => none
  else if name = "RegoPolicyHint" then
    match lookupField r "module", lookupField r "queries" with
    | some (.str m), some (.arr xs) =>
      match validateStrList xs with
      | some qs => some (.regoPolicyHint parent m qs)
      | none => none
    | _, _ => none
  else if name = "Cql2FilterHint" then
    match lookupField r "queries" with
    | some (.arr xs) =>
      match validateCql2QueryList xs with
      | some qs => some (.cql2FilterHint parent qs)
      | none => none
    | _ => none
  else if name = "Cql2Query" then
    match validateCql2Query (.obj r) with
    | some q => some (.cql2QueryObj q)
    | none => none
  else if name = "ProblemDetails" then
    match validateProblemDetails r with
    | some pd => some (.problemDetailsObj pd)
    | none => none
  else none

/-- Substring test on character lists (structural recursion). -/
def listContains (hay needle : List Char) : Bool :=
  match hay with
  | [] => needle.isEmpty
  | _ :: t => needle.isPrefixOf hay || listContains t needle

/-- True when the Python test `'eoap:' in fqn` holds for a string. -/
def containsEoapColon (fqn : String) : Bool :=
  listContains fqn.data "eoap:".data

/-- Split a character list on the colon character, Python
`str.split(':')` semantics: always at least one (possibly empty)
segment, empty segments kept. -/
def splitOnColon : List Char → List (List Char)
  | [] => [[]]
  | c :: rest =>
    let r := splitOnColon rest
    if c = ':' then [] :: r
    else
      match r with
      | [] => [[c]]
      | seg :: segs => (c :: seg) :: segs

/-- The Python expression `fqn.split(':')[-1]`. -/
def bareKindName (fqn : String) : String :=
  String.mk ((splitOnColon fqn.data).getLastD [])

/-- Resolver for one raw record, __init__.py lines 132-152. The
`hint['class']` access (line 136) precedes the try, so a missing key
raises a KeyError out of the resolver; the `'eoap:' in fqn` test and
the `.split` call (lines 140-141) also precede it, so a non-string
discriminator raises a TypeError (number, bool, None: substring test
on a non-container) or an AttributeError (list or dict containing the
element or key "eoap:", whose membership test succeeds but which has
no `.split`). -/
def _get_assertion_hint_by_name (parent_workflow : Option Workflow) (hint : Record) :
    Except String (Option ResolvedObj) :=
  match lookupField hint "class" with
  | none => .error "KeyError: class"
  | some (.str fqn) =>
    if containsEoapColon fqn then
      .ok (tryConstruct (bareKindName fqn) parent_workflow hint)
    else
      .ok none
  | some (.arr xs) =>
    if xs.any fun v => match v with | .str s => s = "eoap:" | _ => false then
      .error "AttributeError: split"
    else .ok none
  | some (.obj fields) =>
    if fields.any fun kv => kv.1 = "eoap:" then
      .error "AttributeError: split"
    else .ok none
  | some _ => .error "TypeError: argument not iterable"

/-- Loop body of `extract_assertion_hints` (__init__.py lines 160-165):
dict entries are resolved, truthy results appended in order, None
results and non-dict entries skipped; an exception escaping the
resolver propagates. Every constructed pydantic object is truthy. -/
def processHintEntries (wf : Workflow) : List RawHintEntry → Except String (List ResolvedObj)
  | [] => .ok []
  | .record r :: rest =>
    match _get_assertion_hint_by_name (some wf) r with
    | .error e => .error e
    | .ok inst? =>
      match processHintEntries wf rest with
      | .error e => .error e
      | .ok tail =>
        match inst? with
        | some inst => .ok (inst :: tail)
        | none => .ok tail
  | .passthrough :: rest => processHintEntries wf rest

/-- extract_assertion_hints (__init__.py lines 154-169): the
`if workflow.hints:` truthiness test treats both None and an empty
list as absent hints. -/
def extract_assertion_hints (workflow : Workflow) : Except String (List ResolvedObj) :=
  match workflow.hints with
  | none => .ok []
  | some entries =>
    if entries.isEmpty then .ok []
    else processHintEntries workflow entries

/-! ## Annotation constants and serializers -/

/-- Annotation constant of JSONSchemaHint (__init__.py lines 59-65). -/
def jsonSchemaAnnotationName : String := "eoap.ogc.org/inputs-json-schema"

/-- Annotation constant of RegoPolicyHint (__init__.py lines 78-87). -/
def regoPolicyAnnotationName : String := "eoap.ogc.org/inputs-rego-policy"

/-- Annotation constant of Cql2FilterHint (__init__.py lines 110-118). -/
def cql2FilterAnnotationName : String := "eoap.ogc.org/inputs-cql2-filter"

/-- The value of the `annotation` attribute of a resolved object:
fixed per hint class; the non-hint objects have no such attribute
(an AttributeError, modelled as none). -/
def ResolvedObj.annotationValue : ResolvedObj → Option String
  | .jsonSchemaHint _ _ => some jsonSchemaAnnotationName
  | .regoPolicyHint _ _ _ => some regoPolicyAnnotationName
  | .cql2FilterHint _ _ => some cql2FilterAnnotationName
  | .cql2QueryObj _ => none
  | .problemDetailsObj _ => none

/-- JSONSchemaHint.ser_model (__init__.py lines 67-69): with a parent
workflow the schema is derived through the external cwl2ogc converter
(passed here as a function parameter); otherwise the serialized form
is the inline schema mapping itself. -/
def JSONSchemaHint.ser_model (conv : Workflow → Record) (parent : Option Workflow)
    (json_schema : Record) : Record :=
  match parent with
  | some wf => conv wf
  | none => json_schema

/-- RegoPolicyHint.ser_model (__init__.py lines 89-94). -/
def RegoPolicyHint.ser_model (module : String) (queries : List String) : Record :=
  [("queries", .arr (queries.map .str)), ("module", .str module)]

/-- Serialization of a Cql2Value back to JSON; the `other` case is
unreachable for pydantic-validated queries. -/
def Cql2Value.ser : Cql2Value → JValue
  | .text s => .str s
  | .json fields => .obj fields
  | .other t => .str t

/-- Serialization of a Cql2Query model to its JSON form. -/
def Cql2Query.ser (q : Cql2Query) : JValue :=
  .obj [("id", .str q.id), ("cql2", q.cql2.ser), ("message", .str q.message)]

/-- Cql2FilterHint.ser_model (__init__.py lines 120-124). -/
def Cql2FilterHint.ser_model (queries : List Cql2Query) : Record :=
  [("queries", .arr (queries.map Cql2Query.ser))]

/-! ## Cql2Validator (cql2_validator.py lines 50-116)

The pygeofilter engine (parse_cql2_text, parse_cql2_json, and the
NativeEvaluator built in __init__ with the ensure_bbox function map)
is the external filter-language engine; it is abstracted as a record
of deterministic functions. Parsing is wrapped in try/except in the
source; evaluation (`self.evaluator.evaluate(ast)` and
`predicate(data)`) is not, so an evaluation failure propagates. -/

/-- External pygeofilter engine behaviour for one validator instance. -/
structure Cql2Engine (Ast Inputs : Type) where
  parseText : String → Except String Ast
  parseJson : Record → Except String Ast
  evaluate : Ast → Inputs → Except String Bool

/-- Message prefix of the text-parse-failure detail. -/
def cql2TextParseMsg : String :=
  "Filter does not look like a valid CQL2 Text encoded sentece: "

/-- Message prefix of the JSON-parse-failure detail. -/
def cql2JsonParseMsg : String :=
  "Filter does not look like a valid CQL2 JSON encoded structure: "

/-- Message prefix of the unrecognized-format detail. -/
def cql2FormatMsg : String :=
  "Filter is expressed in an unrecognizible format: "

/-- One `errors_list.append(ErrorDetail(pointer=..., detail=...))`
step, as a one-element contribution (or a propagated
ValidationError when a constr bound is violated). -/
def singleDetail (pointer : Option String) (msg : String) :
    Except String (List ErrorDetail) :=
  match mkErrorDetail pointer msg with
  | .error err => .error err
  | .ok d => .ok [d]

/-- The `if ast:` evaluation step (cql2_validator.py lines 102-111):
an uncaught engine failure propagates; a false predicate yields the
declared message pinned to the query id; a true predicate nothing. -/
def cql2EvalCase {Ast Inputs : Type} (E : Cql2Engine Ast Inputs) (data : Inputs)
    (q : Cql2Query) (ast : Ast) : Except String (List ErrorDetail) :=
  match E.evaluate ast data with
  | .error e => .error e
  | .ok true => .ok []
  | .ok false => singleDetail (some q.id) q.message

/-- Error details one query contributes to `errors_list`
(cql2_validator.py lines 71-111, one loop iteration). -/
def cql2QueryErrors {Ast Inputs : Type} (E : Cql2Engine Ast Inputs) (data : Inputs)
    (q : Cql2Query) : Except String (List ErrorDetail) :=
  match q.cql2 with
  | .text s =>
    match E.parseText s with
    | .error e => singleDetail (some q.id) (cql2TextParseMsg ++ e)
    | .ok ast => cql2EvalCase E data q ast
  | .json j =>
    match E.parseJson j with
    | .error e => singleDetail (some q.id) (cql2JsonParseMsg ++ e)
    | .ok ast => cql2EvalCase E data q ast
  | .other t => singleDetail (some q.id) (cql2FormatMsg ++ t)

/-- The whole `for filter in self.queries:` loop accumulating
`errors_list` left to right; a raised exception aborts it. -/
def cql2CollectErrors {Ast Inputs : Type} (E : Cql2Engine Ast Inputs) (data : Inputs) :
    List Cql2Query → Except String (List ErrorDetail)
  | [] => .ok []
  | q :: rest =>
    match cql2QueryErrors E data q with
    | .error e => .error e
    | .ok es =>
      match cql2CollectErrors E data rest with
      | .error e => .error e
      | .ok tail => .ok (es ++ tail)

/-- Cql2Validator.validate_inputs (cql2_validator.py lines 65-116). -/
def Cql2Validator.validate_inputs {Ast Inputs : Type} (E : Cql2Engine Ast Inputs)
    (queries : List Cql2Query) (data : Inputs) : Except String (Option ProblemDetails) :=
  match cql2CollectErrors E data queries with
  | .error e => .error e
  | .ok [] => .ok none
  | .ok (d :: ds) =>
    match BusinessRuleViolation (d :: ds) with
    | .error e => .error e
    | .ok pd => .ok (some pd)

/-! ## RegoValidator (rego_validator.py lines 31-65)

The regopy Interpreter instance is retained on the validator and
mutated by `set_input`; it is modelled as explicit state, and the
engine behaviour (module + current input + query string to result
rows) as a deterministic function parameter. Expression values are
modelled as the strings that become ErrorDetail details. -/

/-- One result row of a rego query. -/
structure RegoResult where
  expressions : List String
deriving Repr, DecidableEq

/-- Retained interpreter state: the bound module and the input last
set by `set_input` (none before the first call). -/
structure RegoInterp (Inputs : Type) where
  module : String
  input : Option Inputs := none
deriving Repr, DecidableEq

/-- External regopy engine behaviour: result rows of a query, as a
function of the bound module and the current input. -/
structure RegoSem (Inputs : Type) where
  query : String → Option Inputs → String → List RegoResult

/-- The mutation performed by `self.rego.set_input(data)`. -/
def RegoInterp.set_input {Inputs : Type} (r : RegoInterp Inputs) (data : Inputs) :
    RegoInterp Inputs :=
  { r with input := some data }

/-- RegoValidator instance state: interpreter plus query list. -/
structure RegoValidator (Inputs : Type) where
  rego : RegoInterp Inputs
  queries : List String
deriving Repr, DecidableEq

/-- The inner `for result in self.rego.query(query):` loop
(rego_validator.py lines 51-62): rows without expressions are skipped;
each other row appends one ErrorDetail with the query string as
pointer and the first expression as detail. -/
def regoCollectRows (query : String) : List RegoResult → Except String (List ErrorDetail)
  | [] => .ok []
  | res :: rest =>
    match res.expressions with
    | [] => regoCollectRows query rest
    | e :: _ =>
      match mkErrorDetail (some query) e with
      | .error err => .error err
      | .ok d =>
        match regoCollectRows query rest with
        | .error err => .error err
        | .ok ds => .ok (d :: ds)

/-- The outer `for query in self.queries:` loop. -/
def regoCollectQueries {Inputs : Type} (sem : RegoSem Inputs) (interp : RegoInterp Inputs) :
    List String → Except String (List ErrorDetail)
  | [] => .ok []
  | q :: rest =>
    match regoCollectRows q (sem.query interp.module interp.input q) with
    | .error e => .error e
    | .ok ds =>
      match regoCollectQueries sem interp rest with
      | .error e => .error e
      | .ok tail => .ok (ds ++ tail)

/-- RegoValidator.validate_inputs (rego_validator.py lines 42-65):
sets the input on the retained interpreter, collects error details
over all queries, and returns a BusinessRuleViolation when the list
is non-empty (falling off the end, hence None, otherwise). Returns
the post-call validator state alongside the result. -/
def RegoValidator.validate_inputs {Inputs : Type} (sem : RegoSem Inputs)
    (rv : RegoValidator Inputs) (data : Inputs) :
    RegoValidator Inputs × Except String (Option ProblemDetails) :=
  let interp := rv.rego.set_input data
  let rv1 : RegoValidator Inputs := { rego := interp, queries := rv.queries }
  match regoCollectQueries sem interp rv.queries with
  | .error e => (rv1, .error e)
  | .ok [] => (rv1, .ok none)
  | .ok (d :: ds) =>
    match BusinessRuleViolation (d :: ds) with
    | .error e => (rv1, .error e)
    | .ok pd => (rv1, .ok (some pd))

/-- Cql2Validator.validate_inputs with the validator state threaded
through, mirroring that the method body never rebinds any attribute
of `self` (the retained NativeEvaluator is only read). -/
def Cql2Validator.validate_inputsS {Ast Inputs : Type} (E : Cql2Engine Ast Inputs)
    (queries : List Cql2Query) (data : Inputs) :
    List Cql2Query × Except String (Option ProblemDetails) :=
  (queries, Cql2Validator.validate_inputs E queries data)

/-! ## Orchestrator (_scan_workflow, cli.py lines 36-70)

The prepare loop (lines 47-53) wraps `hint_instance.validator()` in
try/except, so a build failure only skips that validator; the run
loop (lines 58-68) calls `validator.validate_inputs(inputs)` with no
exception handling, so a raising validator aborts the loop and the
exception escapes `_scan_workflow`. A validator is modelled as a
function from the input mapping to an exception or an optional
Problem Report. -/

/-- The prepare loop: failed builds are logged and skipped. -/
def prepareValidators {V : Type} (builds : List (Except String V)) : List V :=
  builds.filterMap fun b => match b with | .ok v => some v | .error _ => none

/-- The run loop: returns the per-validator outcomes of the validators
that completed, in order, and the exception of the first validator
that raised (which aborts the loop), if any. -/
def runValidatorsLoop {Inputs : Type} (inputs : Inputs) :
    List (Inputs → Except String (Option ProblemDetails)) →
    List (Option ProblemDetails) × Option String
  | [] => ([], none)
  | v :: rest =>
    match v inputs with
    | .ok r =>
      let p := runValidatorsLoop inputs rest
      (r :: p.1, p.2)
    | .error e => ([], some e)

/-- How many validators of the list were actually executed by the run
loop: all those that completed plus the raising one, if any. -/
def ranCount {Inputs : Type} (inputs : Inputs)
    (vs : List (Inputs → Except String (Option ProblemDetails))) : Nat :=
  let p := runValidatorsLoop inputs vs
  p.1.length + (if p.2.isSome then 1 else 0)

/-! ## Statement helpers and fixtures -/

/-- The parse step the validator applies to a query expression: the
text parser for strings, the JSON parser for mappings, no parse at
all for other shapes. -/
def cql2ParseResult {Ast Inputs : Type} (E : Cql2Engine Ast Inputs) :
    Cql2Value → Option (Except String Ast)
  | .text s => some (E.parseText s)
  | .json j => some (E.parseJson j)
  | .other _ => none

/-- Fixture: a malformed policy-hint record (module and queries
missing) followed by a well-formed one. -/
def sampleHintEntries : List RawHintEntry :=
  [ RawHintEntry.record [("class", JValue.str "eoap:RegoPolicyHint")]
  , RawHintEntry.record
      [ ("class", JValue.str "eoap:RegoPolicyHint")
      , ("module", JValue.str "package x")
      , ("queries", JValue.arr [JValue.str "data.x.deny"]) ] ]

/-- Fixture: a workflow carrying `sampleHintEntries`. -/
def sampleWorkflow : Workflow :=
  { id := "w", class_ := "Workflow", cwlVersion := "v1.2"
  , hints := some sampleHintEntries }

/-- Fixture: a CQL2 engine over trivial AST and input types whose
single text expression "good" parses and evaluates to the boolean its
input supplies, and whose other expressions fail to parse. -/
def sampleCql2Engine : Cql2Engine Unit Bool :=
  { parseText := fun s => if s = "good" then .ok () else .error "bad expression"
  , parseJson := fun _ => .error "bad structure"
  , evaluate := fun _ b => .ok b }

/-- Specification-side description of the policy validator's error
list, following section 4.3 of the spec: one Error Detail per result
row with at least one expression, pointer the query string, detail the
first expression value, in declaration order. Compared against the
implementation in the C7 theorem. -/
def regoSpecErrors {Inputs : Type} (sem : RegoSem Inputs) (module : String)
    (data : Inputs) (queries : List String) : List ErrorDetail :=
  (queries.map fun q =>
    (sem.query module (some data) q).filterMap fun res =>
      match res.expressions with
      | [] => none
      | e :: _ => some { detail := e, pointer := some q }).flatten

/-- Fixture: a rego engine with one denying query. -/
def sampleRegoSem : RegoSem Unit :=
  { query := fun _ _ q =>
      if q = "data.x.deny" then [{ expressions := ["denied"] }] else [] }

/-- Fixture: a policy validator over two queries. -/
def sampleRegoValidator : RegoValidator Unit :=
  { rego := { module := "package x" }, queries := ["data.x.deny", "data.x.allow"] }

/-- Fixture: the report the sample filter run produces on a false
predicate. -/
def sampleViolationReport : ProblemDetails :=
  { businessRuleViolationBase with
    errors := some [{ detail := "m", pointer := some "q1" }] }

/-- Fixture: the report the sample filter run produces on a parse
failure. -/
def sampleParseFailReport : ProblemDetails :=
  { businessRuleViolationBase with
    errors := some [{ detail := cql2TextParseMsg ++ "bad expression"
                    , pointer := some "q1" }] }

/-! ## Shared helper lemmas -/

/-- The run loop after a prefix of completing validators and one
raising validator: the exception escapes and only the prefix
contributed outcomes. -/
theorem runLoop_prefix_ok_then_error {Inputs : Type} (inputs : Inputs)
    (vs2 : List (Inputs → Except String (Option ProblemDetails)))
    (v : Inputs → Except String (Option ProblemDetails)) (e : String)
    (h2 : v inputs = .error e) :
    ∀ (vs1 : List (Inputs → Except String (Option ProblemDetails))),
      (∀ w ∈ vs1, ∃ r, w inputs = Except.ok r) →
      (runValidatorsLoop inputs (vs1 ++ v :: vs2)).2 = some e ∧
      (runValidatorsLoop inputs (vs1 ++ v :: vs2)).1.length = vs1.length := by
  intro vs1
  induction vs1 with
  | nil =>
    intro _
    simp [runValidatorsLoop, h2]
  | cons w ws ih =>
    intro hall
    obtain ⟨r, hr⟩ := hall w (by simp)
    have ih1 := ih fun x hx => hall x (by simp [hx])
    simp [runValidatorsLoop, hr, ih1.1, ih1.2]

/-- Validating the serialization of a string list recovers the list. -/
theorem validateStrList_map_str (qs : List String) :
    validateStrList (qs.map JValue.str) = some qs := by
  induction qs with
  | nil => rfl
  | cons q t ih => simp [validateStrList, ih]

/-- Validating the serialization of a pydantic-valid Cql2Query
recovers the query. -/
theorem validateCql2Query_ser (q : Cql2Query) (h : q.cql2.pydanticValid = true) :
    validateCql2Query q.ser = some q := by
  cases q with
  | mk i c m =>
    cases c with
    | text s => rfl
    | json f => rfl
    | other t => simp [Cql2Value.pydanticValid] at h

/-- Validating the serialization of a pydantic-valid query list
recovers the list. -/
theorem validateCql2QueryList_ser (qs : List Cql2Query)
    (h : ∀ q ∈ qs, q.cql2.pydanticValid = true) :
    validateCql2QueryList (qs.map Cql2Query.ser) = some qs := by
  induction qs with
  | nil => rfl
  | cons q t ih =>
    have hq := validateCql2Query_ser q (h q (by simp))
    have ht := ih fun x hx => h x (by simp [hx])
    simp [validateCql2QueryList, hq, ht]

/-- A record resolved to an object necessarily had an
`'eoap:'`-containing class discriminator. -/
theorem resolve_some_contains (parent : Option Workflow) (r : Record) (fqn : String)
    (obj : ResolvedObj)
    (hl : lookupField r "class" = some (.str fqn))
    (h : _get_assertion_hint_by_name parent r = .ok (some obj)) :
    containsEoapColon fqn = true := by
  unfold _get_assertion_hint_by_name at h
  rw [hl] at h
  by_cases hc : containsEoapColon fqn = true
  · exact hc
  · simp [hc] at h

/-! ## Claim C1 -/

/-- C1 (counterexample): with two built validators whose first raises
during the run phase, only one validator is executed, not both: the
run loop of `_scan_workflow` (cli.py lines 58-68) has no exception
handling, so the claim that the remaining validators still run is
false. -/
theorem C1_counterexample :
    ¬ ranCount ()
        [fun _ : Unit => (Except.error "boom" : Except String (Option ProblemDetails)),
         fun _ : Unit => Except.ok none] = 2 := by
  intro h
  simp [ranCount, runValidatorsLoop] at h

/-- C1 (amended): when a built validator raises during the run phase,
the exception escapes the orchestrator and the validators after the
raising one are not run (only the completing prefix contributes
outcomes); per-validator isolation of failures exists only in the
prepare phase, where a failed build is skipped and the other
validators are still built. -/
theorem C1_amended {Inputs : Type} (inputs : Inputs)
    (vs1 vs2 : List (Inputs → Except String (Option ProblemDetails)))
    (v : Inputs → Except String (Option ProblemDetails)) (e : String)
    (h1 : ∀ w ∈ vs1, ∃ r, w inputs = Except.ok r)
    (h2 : v inputs = .error e) :
    (runValidatorsLoop inputs (vs1 ++ v :: vs2)).2 = some e ∧
    (runValidatorsLoop inputs (vs1 ++ v :: vs2)).1.length = vs1.length ∧
    ∀ (V : Type) (builds1 builds2 : List (Except String V)) (err : String),
      prepareValidators (builds1 ++ .error err :: builds2) =
        prepareValidators builds1 ++ prepareValidators builds2 := by
  have aux := runLoop_prefix_ok_then_error inputs vs2 v e h2 vs1 h1
  refine ⟨aux.1, aux.2, ?_⟩
  intro V b1 b2 err
  simp [prepareValidators, List.filterMap_append, List.filterMap_cons]

/-- Witness for C1 (amended) at a concrete three-validator run. -/
theorem C1_amended_witness :
    (∀ w ∈ [fun _ : Unit => (Except.ok none : Except String (Option ProblemDetails))],
        ∃ r, w () = Except.ok r) ∧
    (fun _ : Unit => (Except.error "boom" : Except String (Option ProblemDetails))) () =
      Except.error "boom" ∧
    ((runValidatorsLoop ()
        ([fun _ : Unit => (Except.ok none : Except String (Option ProblemDetails))] ++
          (fun _ : Unit => (Except.error "boom" : Except String (Option ProblemDetails))) ::
          [fun _ : Unit => Except.ok none])).2 = some "boom" ∧
      (runValidatorsLoop ()
        ([fun _ : Unit => (Except.ok none : Except String (Option ProblemDetails))] ++
          (fun _ : Unit => (Except.error "boom" : Except String (Option ProblemDetails))) ::
          [fun _ : Unit => Except.ok none])).1.length =
        [fun _ : Unit => (Except.ok none : Except String (Option ProblemDetails))].length ∧
      ∀ (V : Type) (builds1 builds2 : List (Except String V)) (err : String),
        prepareValidators (builds1 ++ .error err :: builds2) =
          prepareValidators builds1 ++ prepareValidators builds2) := by
  have h1 : ∀ w ∈ [fun _ : Unit => (Except.ok none : Except String (Option ProblemDetails))],
      ∃ r, w () = Except.ok r := by
    intro w hw
    simp at hw
    subst hw
    exact ⟨none, rfl⟩
  exact ⟨h1, rfl, C1_amended () _ _ _ "boom" h1 rfl⟩

/-! ## Claim C2 -/

/-- C2 (counterexample): a record whose class discriminator is
`eoap:Cql2Query` carries the namespace marker, its bare kind name is
outside the set of the three hint kinds, yet the resolver returns a
resolved object (the nested pydantic model Cql2Query constructed from
the record fields) instead of skipping the record: the resolver looks
the bare name up in the module globals, not in a fixed kind set. -/
theorem C2_counterexample :
    _get_assertion_hint_by_name none
      [("class", JValue.str "eoap:Cql2Query"), ("id", JValue.str "q1"),
       ("cql2", JValue.str "true"), ("message", JValue.str "msg")] =
      Except.ok (some (.cql2QueryObj { id := "q1", cql2 := .text "true", message := "msg" })) ∧
    containsEoapColon "eoap:Cql2Query" = true ∧
    bareKindName "eoap:Cql2Query" = "Cql2Query" ∧
    ("Cql2Query" ≠ "JSONSchemaHint" ∧ "Cql2Query" ≠ "RegoPolicyHint" ∧
      "Cql2Query" ≠ "Cql2FilterHint") :=
  ⟨rfl, rfl, rfl, by decide⟩

/-- C2 (amended): a record whose string discriminator does not contain
`eoap:` is skipped, and a prefixed record whose bare kind name matches
no constructible module global (unknown names, and the abstract or
non-instantiable classes such as AssertionHint, whose construction
raises and is caught) is dropped; but the lookup is over all module
globals rather than a fixed kind set, so a prefixed record naming
another constructible module-level class, such as eoap:Cql2Query,
also yields a resolved object. -/
theorem C2_amended :
    (∀ (parent : Option Workflow) (r : Record) (fqn : String),
        lookupField r "class" = some (.str fqn) →
        containsEoapColon fqn = false →
        _get_assertion_hint_by_name parent r = .ok none) ∧
    (∀ (parent : Option Workflow) (r : Record) (fqn : String),
        lookupField r "class" = some (.str fqn) →
        containsEoapColon fqn = true →
        bareKindName fqn ∉ (["JSONSchemaHint", "RegoPolicyHint", "Cql2FilterHint",
          "Cql2Query", "ProblemDetails"] : List String) →
        _get_assertion_hint_by_name parent r = .ok none) ∧
    _get_assertion_hint_by_name none [("class", JValue.str "eoap:AssertionHint")] =
      .ok none ∧
    _get_assertion_hint_by_name none
      [("class", JValue.str "eoap:Cql2Query"), ("id", JValue.str "qa"),
       ("cql2", JValue.obj []), ("message", JValue.str "mm")] =
      .ok (some (.cql2QueryObj { id := "qa", cql2 := .json [], message := "mm" })) := by
  refine ⟨?_, ?_, rfl, rfl⟩
  · intro parent r fqn hl hc
    unfold _get_assertion_hint_by_name
    rw [hl]
    simp [hc]
  · intro parent r fqn hl hc hnot
    simp only [List.mem_cons, List.mem_singleton] at hnot
    push_neg at hnot
    obtain ⟨n1, n2, n3, n4, n5⟩ := hnot
    unfold _get_assertion_hint_by_name
    rw [hl]
    simp only [hc, if_true]
    unfold tryConstruct
    by_cases hpw : (lookupField r "parent_workflow").isSome
    · simp [hpw]
    · simp [hpw, n1, n2, n3, n4, n5]

/-- Witness for C2 (amended) at two concrete records. -/
theorem C2_amended_witness :
    (lookupField [("class", JValue.str "other.ns/schema")] "class" =
        some (.str "other.ns/schema") ∧
      containsEoapColon "other.ns/schema" = false ∧
      _get_assertion_hint_by_name none [("class", JValue.str "other.ns/schema")] = .ok none) ∧
    (lookupField [("class", JValue.str "eoap:NoSuchKind")] "class" =
        some (.str "eoap:NoSuchKind") ∧
      containsEoapColon "eoap:NoSuchKind" = true ∧
      bareKindName "eoap:NoSuchKind" ∉ (["JSONSchemaHint", "RegoPolicyHint", "Cql2FilterHint",
        "Cql2Query", "ProblemDetails"] : List String) ∧
      _get_assertion_hint_by_name none [("class", JValue.str "eoap:NoSuchKind")] = .ok none) :=
  ⟨⟨rfl, rfl, C2_amended.1 none _ "other.ns/schema" rfl rfl⟩,
   ⟨rfl, rfl, by decide,
    C2_amended.2.1 none _ "eoap:NoSuchKind" rfl rfl (by decide)⟩⟩

/-! ## Claim C3 -/

/-- C3 (counterexample): the serialized declaration form of a policy
hint contains no class discriminator at all, so re-resolving it does
not yield an equivalent Hint: the resolver raises a KeyError on the
missing `class` field. -/
theorem C3_counterexample :
    RegoPolicyHint.ser_model "m" ["q"] =
      [("queries", JValue.arr [JValue.str "q"]), ("module", JValue.str "m")] ∧
    _get_assertion_hint_by_name none (RegoPolicyHint.ser_model "m" ["q"]) =
      .error "KeyError: class" :=
  ⟨rfl, rfl⟩

/-- C3 (amended): after re-adding the class discriminator to the
serialized form, policy hints and filter hints (with pydantic-valid
queries) round-trip to equivalent hints; schema hints do not round-trip
even then, because ser_model emits the inline schema itself rather
than a record with a json_schema field, so re-resolution falls back
to the empty default schema. -/
theorem C3_amended :
    (∀ (m : String) (qs : List String),
      _get_assertion_hint_by_name none
        (("class", JValue.str "eoap:RegoPolicyHint") :: RegoPolicyHint.ser_model m qs) =
        .ok (some (.regoPolicyHint none m qs))) ∧
    (∀ (qs : List Cql2Query),
      (∀ q ∈ qs, q.cql2.pydanticValid = true) →
      _get_assertion_hint_by_name none
        (("class", JValue.str "eoap:Cql2FilterHint") :: Cql2FilterHint.ser_model qs) =
        .ok (some (.cql2FilterHint none qs))) ∧
    (∀ (conv : Workflow → Record),
      _get_assertion_hint_by_name none
        (("class", JValue.str "eoap:JSONSchemaHint") ::
          JSONSchemaHint.ser_model conv none [("type", JValue.str "object")]) =
        .ok (some (.jsonSchemaHint none [])) ∧
      ([] : Record) ≠ [("type", JValue.str "object")]) := by
  refine ⟨?_, ?_, ?_⟩
  · intro m qs
    simp [_get_assertion_hint_by_name, RegoPolicyHint.ser_model, lookupField,
      containsEoapColon, tryConstruct, validateStrList_map_str]
    rfl
  · intro qs h
    simp [_get_assertion_hint_by_name, Cql2FilterHint.ser_model, lookupField,
      containsEoapColon, tryConstruct, validateCql2QueryList_ser qs h]
    rfl
  · intro conv
    exact ⟨rfl, by simp⟩

/-- Witness for C3 (amended) at a concrete filter hint. -/
theorem C3_amended_witness :
    (∀ q ∈ [({ id := "q1", cql2 := .text "true", message := "m" } : Cql2Query)],
        q.cql2.pydanticValid = true) ∧
    _get_assertion_hint_by_name none
      (("class", JValue.str "eoap:Cql2FilterHint") ::
        Cql2FilterHint.ser_model [{ id := "q1", cql2 := .text "true", message := "m" }]) =
      .ok (some (.cql2FilterHint none [{ id := "q1", cql2 := .text "true", message := "m" }])) := by
  have h : ∀ q ∈ [({ id := "q1", cql2 := .text "true", message := "m" } : Cql2Query)],
      q.cql2.pydanticValid = true := by
    intro q hq
    simp at hq
    subst hq
    rfl
  exact ⟨h, C3_amended.2.1 _ h⟩

/-! ## Claim C4 -/

/-- C4 (counterexample): a schema hint resolved under the
discriminator `eoap:JSONSchemaHint` has the fixed annotation value
`eoap.ogc.org/inputs-json-schema`, which is not the name the resolver
looked the record up under. -/
theorem C4_counterexample :
    _get_assertion_hint_by_name none [("class", JValue.str "eoap:JSONSchemaHint")] =
      .ok (some (.jsonSchemaHint none [])) ∧
    (ResolvedObj.jsonSchemaHint none []).annotationValue = some jsonSchemaAnnotationName ∧
    jsonSchemaAnnotationName ≠ "eoap:JSONSchemaHint" :=
  ⟨rfl, rfl, by decide⟩

/-- C4 (amended): the annotation of every resolved schema, policy or
filter hint is the fixed constant of its kind, and that constant never
equals the class discriminator the resolver looked the record up
under (the accepted discriminators contain `eoap:`; the annotation
constants do not). -/
theorem C4_amended (parent : Option Workflow) (r : Record) (fqn : String)
    (obj : ResolvedObj)
    (hl : lookupField r "class" = some (.str fqn))
    (hres : _get_assertion_hint_by_name parent r = .ok (some obj)) :
    (∀ p js, obj = .jsonSchemaHint p js →
        obj.annotationValue = some jsonSchemaAnnotationName ∧ fqn ≠ jsonSchemaAnnotationName) ∧
    (∀ p m qs, obj = .regoPolicyHint p m qs →
        obj.annotationValue = some regoPolicyAnnotationName ∧ fqn ≠ regoPolicyAnnotationName) ∧
    (∀ p qs, obj = .cql2FilterHint p qs →
        obj.annotationValue = some cql2FilterAnnotationName ∧ fqn ≠ cql2FilterAnnotationName) := by
  have hc := resolve_some_contains parent r fqn obj hl hres
  refine ⟨?_, ?_, ?_⟩
  · intro p js hobj
    subst hobj
    refine ⟨rfl, ?_⟩
    intro heq
    rw [heq] at hc
    exact absurd hc (by decide)
  · intro p m qs hobj
    subst hobj
    refine ⟨rfl, ?_⟩
    intro heq
    rw [heq] at hc
    exact absurd hc (by decide)
  · intro p qs hobj
    subst hobj
    refine ⟨rfl, ?_⟩
    intro heq
    rw [heq] at hc
    exact absurd hc (by decide)

/-- Witness for C4 (amended) at a concrete resolved schema hint. -/
theorem C4_amended_witness :
    lookupField [("class", JValue.str "eoap:JSONSchemaHint"),
        ("json_schema", JValue.obj [])] "class" =
      some (.str "eoap:JSONSchemaHint") ∧
    _get_assertion_hint_by_name none
      [("class", JValue.str "eoap:JSONSchemaHint"), ("json_schema", JValue.obj [])] =
      .ok (some (.jsonSchemaHint none [])) ∧
    ((ResolvedObj.jsonSchemaHint none []).annotationValue = some jsonSchemaAnnotationName ∧
      "eoap:JSONSchemaHint" ≠ jsonSchemaAnnotationName) := by
  have happ := C4_amended none
    [("class", JValue.str "eoap:JSONSchemaHint"), ("json_schema", JValue.obj [])]
    "eoap:JSONSchemaHint" (.jsonSchemaHint none []) rfl rfl
  exact ⟨rfl, rfl, happ.1 none [] rfl⟩

/-! ## Claim C5 -/

/-- A record with a string class field never raises out of the
resolver: every later failure mode is inside the try/except. -/
theorem resolve_ok_of_class_str (parent : Option Workflow) (r : Record) (fqn : String)
    (h : lookupField r "class" = some (.str fqn)) :
    ∃ o, _get_assertion_hint_by_name parent r = .ok o := by
  unfold _get_assertion_hint_by_name
  rw [h]
  by_cases hc : containsEoapColon fqn = true
  · exact ⟨tryConstruct (bareKindName fqn) parent r, by simp [hc]⟩
  · exact ⟨none, by simp [hc]⟩

/-- The resolution loop under the record contract: no exception, and
the result is the in-order filtering of the per-record resolutions. -/
theorem processHintEntries_ok (wf : Workflow) :
    ∀ (entries : List RawHintEntry),
      (∀ r, RawHintEntry.record r ∈ entries →
        ∃ fqn, lookupField r "class" = some (.str fqn)) →
      processHintEntries wf entries = .ok (entries.filterMap fun ent =>
        match ent with
        | .record r =>
          match _get_assertion_hint_by_name (some wf) r with
          | .ok o => o
          | .error _ => none
        | .passthrough => none) := by
  intro entries
  induction entries with
  | nil => intro _; rfl
  | cons ent rest ih =>
    intro hall
    have ihr := ih fun r hr => hall r (by simp [hr])
    cases ent with
    | record r =>
      obtain ⟨fqn, hfqn⟩ := hall r (by simp)
      obtain ⟨o, ho⟩ := resolve_ok_of_class_str (some wf) r fqn hfqn
      cases o with
      | none => simp [processHintEntries, ho, ihr]
      | some inst => simp [processHintEntries, ho, ihr]
    | passthrough => simp [processHintEntries, ihr]

/-- C5 (confirmed): under the documented record contract (every dict
hint record carries a string `class` discriminator), a malformed
record (one whose kind-required field is missing, hence whose
construction fails) never raises out of the resolver: it is dropped
and the extraction returns, in order, exactly the resolutions of the
other records. -/
theorem C5_malformed_record_dropped (wf : Workflow) (entries : List RawHintEntry)
    (hw : wf.hints = some entries)
    (hclass : ∀ r, RawHintEntry.record r ∈ entries →
      ∃ fqn, lookupField r "class" = some (.str fqn)) :
    extract_assertion_hints wf = .ok (entries.filterMap fun ent =>
      match ent with
      | .record r =>
        match _get_assertion_hint_by_name (some wf) r with
        | .ok o => o
        | .error _ => none
      | .passthrough => none) := by
  unfold extract_assertion_hints
  rw [hw]
  cases entries with
  | nil => rfl
  | cons ent rest =>
    simp only [List.isEmpty_cons, if_false, Bool.false_eq_true]
    exact processHintEntries_ok wf (ent :: rest) hclass

/-- Witness for C5: extraction over `sampleWorkflow` drops the
malformed first record and returns the second's hint. -/
theorem C5_malformed_record_dropped_witness :
    sampleWorkflow.hints = some sampleHintEntries ∧
    extract_assertion_hints sampleWorkflow =
      .ok [ResolvedObj.regoPolicyHint (some sampleWorkflow) "package x" ["data.x.deny"]] := by
  have hclass : ∀ r, RawHintEntry.record r ∈ sampleHintEntries →
      ∃ fqn, lookupField r "class" = some (.str fqn) := by
    intro r hr
    simp only [sampleHintEntries, List.mem_cons, List.not_mem_nil, or_false,
      RawHintEntry.record.injEq] at hr
    rcases hr with h | h
    · subst h; exact ⟨"eoap:RegoPolicyHint", rfl⟩
    · subst h; exact ⟨"eoap:RegoPolicyHint", rfl⟩
  have happ := C5_malformed_record_dropped sampleWorkflow sampleHintEntries rfl hclass
  exact ⟨rfl, happ.trans (by rfl)⟩

/-! ## Claim C6 -/

/-- A text query whose parse fails contributes exactly the parse-error
detail, pinned to the query id. -/
theorem cql2QueryErrors_text_fail {Ast Inputs : Type} (E : Cql2Engine Ast Inputs)
    (data : Inputs) (q : Cql2Query) (s e : String)
    (hc : q.cql2 = .text s) (hp : E.parseText s = .error e)
    (hid : q.id.length ≤ 1024) (hlen : (cql2TextParseMsg ++ e).length ≤ 4096) :
    cql2QueryErrors E data q =
      .ok [{ detail := cql2TextParseMsg ++ e, pointer := some q.id }] := by
  unfold cql2QueryErrors
  rw [hc]
  rw [String.length_append] at hlen
  simp [singleDetail, hp, mkErrorDetail, optLenOk, hid, hlen]

/-- A JSON query whose parse fails contributes exactly the parse-error
detail, pinned to the query id. -/
theorem cql2QueryErrors_json_fail {Ast Inputs : Type} (E : Cql2Engine Ast Inputs)
    (data : Inputs) (q : Cql2Query) (j : Record) (e : String)
    (hc : q.cql2 = .json j) (hp : E.parseJson j = .error e)
    (hid : q.id.length ≤ 1024) (hlen : (cql2JsonParseMsg ++ e).length ≤ 4096) :
    cql2QueryErrors E data q =
      .ok [{ detail := cql2JsonParseMsg ++ e, pointer := some q.id }] := by
  unfold cql2QueryErrors
  rw [hc]
  rw [String.length_append] at hlen
  simp [singleDetail, hp, mkErrorDetail, optLenOk, hid, hlen]

/-- A parsed query whose predicate is false contributes exactly its
declared message, pinned to the query id. -/
theorem cql2QueryErrors_pred_false {Ast Inputs : Type} (E : Cql2Engine Ast Inputs)
    (data : Inputs) (q : Cql2Query) (ast : Ast)
    (hparse : cql2ParseResult E q.cql2 = some (.ok ast))
    (heval : E.evaluate ast data = .ok false)
    (hid : q.id.length ≤ 1024) (hmsg : q.message.length ≤ 4096) :
    cql2QueryErrors E data q = .ok [{ detail := q.message, pointer := some q.id }] := by
  cases hcql : q.cql2 with
  | text s =>
    rw [hcql] at hparse
    simp only [cql2ParseResult, Option.some.injEq] at hparse
    unfold cql2QueryErrors
    rw [hcql]
    simp [singleDetail, hparse, cql2EvalCase, heval, mkErrorDetail, optLenOk, hid, hmsg]
  | json j =>
    rw [hcql] at hparse
    simp only [cql2ParseResult, Option.some.injEq] at hparse
    unfold cql2QueryErrors
    rw [hcql]
    simp [singleDetail, hparse, cql2EvalCase, heval, mkErrorDetail, optLenOk, hid, hmsg]
  | other t =>
    rw [hcql] at hparse
    simp [cql2ParseResult] at hparse

/-- A parsed query whose predicate is true contributes nothing. -/
theorem cql2QueryErrors_pred_true {Ast Inputs : Type} (E : Cql2Engine Ast Inputs)
    (data : Inputs) (q : Cql2Query) (ast : Ast)
    (hparse : cql2ParseResult E q.cql2 = some (.ok ast))
    (heval : E.evaluate ast data = .ok true) :
    cql2QueryErrors E data q = .ok [] := by
  cases hcql : q.cql2 with
  | text s =>
    rw [hcql] at hparse
    simp only [cql2ParseResult, Option.some.injEq] at hparse
    unfold cql2QueryErrors
    rw [hcql]
    simp [hparse, cql2EvalCase, heval]
  | json j =>
    rw [hcql] at hparse
    simp only [cql2ParseResult, Option.some.injEq] at hparse
    unfold cql2QueryErrors
    rw [hcql]
    simp [hparse, cql2EvalCase, heval]
  | other t =>
    rw [hcql] at hparse
    simp [cql2ParseResult] at hparse

/-- The error list over a query sequence is the in-order concatenation
of the per-query error lists: queries are processed independently. -/
theorem cql2CollectErrors_pointwise {Ast Inputs : Type} (E : Cql2Engine Ast Inputs)
    (data : Inputs) (f : Cql2Query → List ErrorDetail) :
    ∀ qs : List Cql2Query,
      (∀ q ∈ qs, cql2QueryErrors E data q = .ok (f q)) →
      cql2CollectErrors E data qs = .ok (qs.map f).flatten := by
  intro qs
  induction qs with
  | nil => intro _; rfl
  | cons q rest ih =>
    intro h
    have hq := h q (by simp)
    have hr := ih fun x hx => h x (by simp [hx])
    simp [cql2CollectErrors, hq, hr]

/-- C6 (confirmed): for the filter validator, a failed parse of a text
or JSON expression yields exactly one Error Detail carrying the parse
error with the query id as pointer; a parsed query whose predicate is
false over the input yields exactly one Error Detail with the query's
declared message and id; the queries are independent (the collected
list is the concatenation of per-query contributions, so one query's
parse failure does not block the others); and when every query parses
and evaluates to true, validate returns None. The bound hypotheses
reflect the constr max_length limits of ErrorDetail construction. -/
theorem C6_filter_validator_semantics {Ast Inputs : Type} (E : Cql2Engine Ast Inputs)
    (data : Inputs) :
    (∀ (q : Cql2Query) (s e : String), q.cql2 = .text s → E.parseText s = .error e →
      q.id.length ≤ 1024 → (cql2TextParseMsg ++ e).length ≤ 4096 →
      cql2QueryErrors E data q =
        .ok [{ detail := cql2TextParseMsg ++ e, pointer := some q.id }]) ∧
    (∀ (q : Cql2Query) (j : Record) (e : String), q.cql2 = .json j →
      E.parseJson j = .error e →
      q.id.length ≤ 1024 → (cql2JsonParseMsg ++ e).length ≤ 4096 →
      cql2QueryErrors E data q =
        .ok [{ detail := cql2JsonParseMsg ++ e, pointer := some q.id }]) ∧
    (∀ (q : Cql2Query) (ast : Ast), cql2ParseResult E q.cql2 = some (.ok ast) →
      E.evaluate ast data = .ok false → q.id.length ≤ 1024 → q.message.length ≤ 4096 →
      cql2QueryErrors E data q = .ok [{ detail := q.message, pointer := some q.id }]) ∧
    (∀ (qs : List Cql2Query) (f : Cql2Query → List ErrorDetail),
      (∀ q ∈ qs, cql2QueryErrors E data q = .ok (f q)) →
      cql2CollectErrors E data qs = .ok (qs.map f).flatten) ∧
    (∀ qs : List Cql2Query,
      (∀ q ∈ qs, ∃ ast, cql2ParseResult E q.cql2 = some (.ok ast) ∧
        E.evaluate ast data = .ok true) →
      Cql2Validator.validate_inputs E qs data = .ok none) := by
  refine ⟨fun q s e hc hp hid hlen => cql2QueryErrors_text_fail E data q s e hc hp hid hlen,
    fun q j e hc hp hid hlen => cql2QueryErrors_json_fail E data q j e hc hp hid hlen,
    fun q ast hparse heval hid hmsg =>
      cql2QueryErrors_pred_false E data q ast hparse heval hid hmsg,
    fun qs f h => cql2CollectErrors_pointwise E data f qs h, ?_⟩
  intro qs h
  have hcollect : cql2CollectErrors E data qs = .ok [] := by
    have := cql2CollectErrors_pointwise E data (fun _ => []) qs fun q hq => by
      obtain ⟨ast, hp, he⟩ := h q hq
      exact cql2QueryErrors_pred_true E data q ast hp he
    simpa using this
  simp [Cql2Validator.validate_inputs, hcollect]

/-- Witness for C6 on the sample engine: a failing text parse, a
false predicate, and an all-true run. -/
theorem C6_filter_validator_semantics_witness :
    ((⟨"q1", Cql2Value.text "nope", "m1"⟩ : Cql2Query).cql2 = .text "nope" ∧
      sampleCql2Engine.parseText "nope" = .error "bad expression" ∧
      cql2QueryErrors sampleCql2Engine false ⟨"q1", Cql2Value.text "nope", "m1"⟩ =
        .ok [{ detail := cql2TextParseMsg ++ "bad expression", pointer := some "q1" }]) ∧
    (cql2ParseResult sampleCql2Engine (Cql2Value.text "good") =
        some (.ok ()) ∧
      sampleCql2Engine.evaluate () false = .ok false ∧
      cql2QueryErrors sampleCql2Engine false ⟨"q2", Cql2Value.text "good", "m2"⟩ =
        .ok [{ detail := "m2", pointer := some "q2" }]) ∧
    Cql2Validator.validate_inputs sampleCql2Engine
      [⟨"q3", Cql2Value.text "good", "m3"⟩] true = .ok none := by
  have happ := C6_filter_validator_semantics sampleCql2Engine false
  refine ⟨⟨rfl, rfl, happ.1 ⟨"q1", Cql2Value.text "nope", "m1"⟩ "nope" "bad expression"
      rfl rfl (by decide) (by decide)⟩,
    ⟨rfl, rfl, happ.2.2.1 ⟨"q2", Cql2Value.text "good", "m2"⟩ () rfl rfl
      (by decide) (by decide)⟩, ?_⟩
  refine (C6_filter_validator_semantics sampleCql2Engine true).2.2.2.2
    [⟨"q3", Cql2Value.text "good", "m3"⟩] ?_
  intro q hq
  simp only [List.mem_singleton] at hq
  subst hq
  exact ⟨(), rfl, rfl⟩

/-! ## Claim C7 -/

/-- The inner row loop produces exactly one detail per row with at
least one expression, none for expression-less rows. -/
theorem regoCollectRows_ok (query : String) (hq : query.length ≤ 1024) :
    ∀ rows : List RegoResult,
      (∀ res ∈ rows, ∀ e es, res.expressions = e :: es → e.length ≤ 4096) →
      regoCollectRows query rows = .ok (rows.filterMap fun res =>
        match res.expressions with
        | [] => none
        | e :: _ => some { detail := e, pointer := some query }) := by
  intro rows
  induction rows with
  | nil => intro _; rfl
  | cons res rest ih =>
    intro h
    have hrest := ih fun x hx e es hes => h x (by simp [hx]) e es hes
    cases hres : res.expressions with
    | nil => simp [regoCollectRows, hres, hrest]
    | cons e es =>
      have he := h res (by simp) e es hres
      simp [regoCollectRows, hres, mkErrorDetail, optLenOk, he, hq, hrest]

/-- The outer query loop concatenates per-query contributions in
declaration order. -/
theorem regoCollectQueries_ok {Inputs : Type} (sem : RegoSem Inputs)
    (interp : RegoInterp Inputs) :
    ∀ queries : List String,
      (∀ q ∈ queries, q.length ≤ 1024) →
      (∀ q ∈ queries, ∀ res ∈ sem.query interp.module interp.input q,
        ∀ e es, res.expressions = e :: es → e.length ≤ 4096) →
      regoCollectQueries sem interp queries = .ok ((queries.map fun q =>
        (sem.query interp.module interp.input q).filterMap fun res =>
          match res.expressions with
          | [] => none
          | e :: _ => some { detail := e, pointer := some q }).flatten) := by
  intro queries
  induction queries with
  | nil => intro _ _; rfl
  | cons q rest ih =>
    intro h1 h2
    have hrow := regoCollectRows_ok q (h1 q (by simp))
      (sem.query interp.module interp.input q) (h2 q (by simp))
    have hr := ih (fun x hx => h1 x (by simp [hx])) (fun x hx => h2 x (by simp [hx]))
    simp [regoCollectQueries, hrow, hr]

/-- C7 (confirmed): the policy validator sets the input mapping as the
engine's evaluation input; its error list follows the spec-side
description (one Error Detail per result row with at least one
expression, pointer the query string, detail the first expression
value; expression-less rows and row-less queries contribute nothing);
and validate returns None exactly when that list is empty. The bound
hypotheses reflect the constr max_length limits of ErrorDetail and
BusinessRuleViolation construction. -/
theorem C7_policy_validator_semantics {Inputs : Type} (sem : RegoSem Inputs)
    (rv : RegoValidator Inputs) (data : Inputs)
    (h1 : ∀ q ∈ rv.queries, q.length ≤ 1024)
    (h2 : ∀ q ∈ rv.queries, ∀ res ∈ sem.query rv.rego.module (some data) q,
      ∀ e es, res.expressions = e :: es → e.length ≤ 4096)
    (h3 : (regoSpecErrors sem rv.rego.module data rv.queries).length ≤ 1000) :
    (RegoValidator.validate_inputs sem rv data).1.rego.input = some data ∧
    (regoSpecErrors sem rv.rego.module data rv.queries = [] →
      (RegoValidator.validate_inputs sem rv data).2 = .ok none) ∧
    (∀ d ds, regoSpecErrors sem rv.rego.module data rv.queries = d :: ds →
      (RegoValidator.validate_inputs sem rv data).2 =
        .ok (some { businessRuleViolationBase with errors := some (d :: ds) })) := by
  have hc2 : regoCollectQueries sem (rv.rego.set_input data) rv.queries =
      .ok (regoSpecErrors sem rv.rego.module data rv.queries) :=
    regoCollectQueries_ok sem (rv.rego.set_input data) rv.queries h1 h2
  refine ⟨?_, ?_, ?_⟩
  · unfold RegoValidator.validate_inputs
    simp only [RegoInterp.set_input]
    cases hx : regoCollectQueries sem { module := rv.rego.module, input := some data }
        rv.queries with
    | error e => simp [hx]
    | ok l =>
      cases l with
      | nil => simp [hx]
      | cons d ds =>
        cases hB : BusinessRuleViolation (d :: ds) with
        | error e => simp [hx, hB]
        | ok pd => simp [hx, hB]
  · intro hnil
    rw [hnil] at hc2
    simp [RegoValidator.validate_inputs, hc2]
  · intro d ds hcons
    rw [hcons] at hc2
    rw [hcons] at h3
    have hB : BusinessRuleViolation (d :: ds) =
        .ok { businessRuleViolationBase with errors := some (d :: ds) } := by
      unfold BusinessRuleViolation
      rw [if_pos h3]
    simp [RegoValidator.validate_inputs, hc2, hB]

/-- Witness for C7 on the sample rego engine and validator. -/
theorem C7_policy_validator_semantics_witness :
    (∀ q ∈ sampleRegoValidator.queries, q.length ≤ 1024) ∧
    regoSpecErrors sampleRegoSem sampleRegoValidator.rego.module () sampleRegoValidator.queries =
      [{ detail := "denied", pointer := some "data.x.deny" }] ∧
    (RegoValidator.validate_inputs sampleRegoSem sampleRegoValidator ()).1.rego.input =
      some () ∧
    (RegoValidator.validate_inputs sampleRegoSem sampleRegoValidator ()).2 =
      .ok (some { businessRuleViolationBase with
        errors := some [{ detail := "denied", pointer := some "data.x.deny" }] }) := by
  have h1 : ∀ q ∈ sampleRegoValidator.queries, q.length ≤ 1024 := by decide
  have h2 : ∀ q ∈ sampleRegoValidator.queries,
      ∀ res ∈ sampleRegoSem.query sampleRegoValidator.rego.module (some ()) q,
      ∀ e es, res.expressions = e :: es → e.length ≤ 4096 := by
    intro q hq res hres e es hes
    have hq2 : q = "data.x.deny" ∨ q = "data.x.allow" := by
      simpa [sampleRegoValidator] using hq
    rcases hq2 with h | h <;> subst h <;> simp [sampleRegoSem] at hres
    subst hres
    simp at hes
    rw [← hes.1]
    decide
  have h3 : (regoSpecErrors sampleRegoSem sampleRegoValidator.rego.module ()
      sampleRegoValidator.queries).length ≤ 1000 := by decide
  have happ := C7_policy_validator_semantics sampleRegoSem sampleRegoValidator () h1 h2 h3
  exact ⟨h1, rfl, happ.1,
    happ.2.2 { detail := "denied", pointer := some "data.x.deny" } [] rfl⟩

/-! ## Claim C8 -/

/-- The second component of the policy validator's result, expressed
directly over the collected error list. -/
theorem rego_validate_snd {Inputs : Type} (sem : RegoSem Inputs)
    (rv : RegoValidator Inputs) (data : Inputs) :
    (RegoValidator.validate_inputs sem rv data).2 =
      match regoCollectQueries sem (rv.rego.set_input data) rv.queries with
      | .error e => .error e
      | .ok [] => .ok none
      | .ok (d :: ds) =>
        match BusinessRuleViolation (d :: ds) with
        | .error e => .error e
        | .ok pd => .ok (some pd) := by
  unfold RegoValidator.validate_inputs
  dsimp only
  cases regoCollectQueries sem (rv.rego.set_input data) rv.queries with
  | error e => rfl
  | ok l =>
    cases l with
    | nil => rfl
    | cons d ds =>
      cases hB : BusinessRuleViolation (d :: ds) with
      | error e => simp [hB]
      | ok pd => simp [hB]

/-- A successfully constructed BusinessRuleViolation carries the fixed
type, status and title of the business-rule-violation kind, and the
errors list it was given. -/
theorem BusinessRuleViolation_ok_fields (l : List ErrorDetail) (pd : ProblemDetails)
    (h : BusinessRuleViolation l = .ok pd) :
    pd.type = some businessRuleViolationType ∧ pd.status = some 422 ∧
    pd.title = some "Business Rule Violation" ∧ pd.errors = some l := by
  unfold BusinessRuleViolation at h
  split at h
  · cases h
    exact ⟨rfl, rfl, rfl, rfl⟩
  · cases h

/-- C8 (confirmed): whenever either validator returns a non-None
Problem Report, the report is of the business-rule-violation kind
(type, status 422 and title equal to that kind's fixed constants) and
its errors list is present and non-empty. -/
theorem C8_reports_are_business_rule_violations :
    (∀ (Ast Inputs : Type) (E : Cql2Engine Ast Inputs) (qs : List Cql2Query)
        (data : Inputs) (r : ProblemDetails),
      Cql2Validator.validate_inputs E qs data = .ok (some r) →
      r.type = some businessRuleViolationType ∧ r.status = some 422 ∧
      r.title = some "Business Rule Violation" ∧ ∃ l, r.errors = some l ∧ l ≠ []) ∧
    (∀ (Inputs : Type) (sem : RegoSem Inputs) (rv : RegoValidator Inputs)
        (data : Inputs) (r : ProblemDetails),
      (RegoValidator.validate_inputs sem rv data).2 = .ok (some r) →
      r.type = some businessRuleViolationType ∧ r.status = some 422 ∧
      r.title = some "Business Rule Violation" ∧ ∃ l, r.errors = some l ∧ l ≠ []) := by
  constructor
  · intro Ast Inputs E qs data r h
    unfold Cql2Validator.validate_inputs at h
    cases hx : cql2CollectErrors E data qs with
    | error e => rw [hx] at h; simp at h
    | ok l =>
      rw [hx] at h
      cases l with
      | nil => simp at h
      | cons d ds =>
        simp only [] at h
        cases hB : BusinessRuleViolation (d :: ds) with
        | error e => rw [hB] at h; simp at h
        | ok pd =>
          rw [hB] at h
          simp only [Except.ok.injEq, Option.some.injEq] at h
          subst h
          obtain ⟨f1, f2, f3, f4⟩ := BusinessRuleViolation_ok_fields (d :: ds) pd hB
          exact ⟨f1, f2, f3, d :: ds, f4, by simp⟩
  · intro Inputs sem rv data r h
    rw [rego_validate_snd] at h
    cases hx : regoCollectQueries sem (rv.rego.set_input data) rv.queries with
    | error e => rw [hx] at h; simp at h
    | ok l =>
      rw [hx] at h
      cases l with
      | nil => simp at h
      | cons d ds =>
        simp only [] at h
        cases hB : BusinessRuleViolation (d :: ds) with
        | error e => rw [hB] at h; simp at h
        | ok pd =>
          rw [hB] at h
          simp only [Except.ok.injEq, Option.some.injEq] at h
          subst h
          obtain ⟨f1, f2, f3, f4⟩ := BusinessRuleViolation_ok_fields (d :: ds) pd hB
          exact ⟨f1, f2, f3, d :: ds, f4, by simp⟩

/-- Witness for C8 at a concrete violating filter run. -/
theorem C8_reports_are_business_rule_violations_witness :
    Cql2Validator.validate_inputs sampleCql2Engine
      [⟨"q1", Cql2Value.text "good", "m"⟩] false = .ok (some sampleViolationReport) ∧
    (sampleViolationReport.type = some businessRuleViolationType ∧
      sampleViolationReport.status = some 422 ∧
      sampleViolationReport.title = some "Business Rule Violation" ∧
      ∃ l, sampleViolationReport.errors = some l ∧ l ≠ []) :=
  ⟨rfl, C8_reports_are_business_rule_violations.1 Unit Bool sampleCql2Engine
    [⟨"q1", Cql2Value.text "good", "m"⟩] false sampleViolationReport rfl⟩

/-! ## Claim C9 -/

/-- C9 (confirmed): invoking validate twice on the same validator
instance with the same input mapping produces equal results. For the
policy validator this includes the retained interpreter state: the
second set_input overwrites the input with the same value, so the
second run starts from the same interpreter state and yields the same
outcome; the filter validator's method never rebinds instance state,
so its threaded-state form is literally invariant. -/
theorem C9_validate_idempotent :
    (∀ (Inputs : Type) (sem : RegoSem Inputs) (rv : RegoValidator Inputs) (data : Inputs),
      RegoValidator.validate_inputs sem (RegoValidator.validate_inputs sem rv data).1 data =
        RegoValidator.validate_inputs sem rv data) ∧
    (∀ (Ast Inputs : Type) (E : Cql2Engine Ast Inputs) (qs : List Cql2Query) (data : Inputs),
      Cql2Validator.validate_inputsS E
          (Cql2Validator.validate_inputsS E qs data).1 data =
        Cql2Validator.validate_inputsS E qs data) := by
  constructor
  · intro Inputs sem rv data
    unfold RegoValidator.validate_inputs
    simp only [RegoInterp.set_input]
    cases hx : regoCollectQueries sem { module := rv.rego.module, input := some data }
        rv.queries with
    | error e => simp [hx]
    | ok l =>
      cases l with
      | nil => simp [hx]
      | cons d ds =>
        cases hB : BusinessRuleViolation (d :: ds) with
        | error e => simp [hx, hB]
        | ok pd => simp [hx, hB]
  · intro Ast Inputs E qs data
    rfl

/-! ## Claim C10 -/

/-- A one-element contribution has length at most one and carries the
pointer it was built with. -/
theorem singleDetail_ok_shape (p : Option String) (msg : String) (es : List ErrorDetail)
    (h : singleDetail p msg = .ok es) :
    es.length ≤ 1 ∧ ∀ d ∈ es, d.pointer = p := by
  unfold singleDetail at h
  cases hm : mkErrorDetail p msg with
  | error err => rw [hm] at h; simp at h
  | ok d =>
    rw [hm] at h
    simp only [Except.ok.injEq] at h
    subst h
    have hp : d.pointer = p := by
      unfold mkErrorDetail at hm
      split at hm
      · cases hm; rfl
      · cases hm
    exact ⟨by simp, by simp [hp]⟩

/-- Each query contributes at most one error detail, and any detail
it contributes points at its id. -/
theorem cql2QueryErrors_shape {Ast Inputs : Type} (E : Cql2Engine Ast Inputs)
    (data : Inputs) (q : Cql2Query) (es : List ErrorDetail)
    (h : cql2QueryErrors E data q = .ok es) :
    es.length ≤ 1 ∧ ∀ d ∈ es, d.pointer = some q.id := by
  cases hc : q.cql2 with
  | text s =>
    unfold cql2QueryErrors at h
    rw [hc] at h
    simp only [] at h
    cases hp : E.parseText s with
    | error e =>
      rw [hp] at h
      exact singleDetail_ok_shape _ _ _ h
    | ok ast =>
      rw [hp] at h
      simp only [] at h
      unfold cql2EvalCase at h
      cases he : E.evaluate ast data with
      | error e2 => rw [he] at h; simp at h
      | ok b =>
        rw [he] at h
        cases b with
        | false => exact singleDetail_ok_shape _ _ _ h
        | true =>
          simp only [Except.ok.injEq] at h
          subst h
          exact ⟨by simp, by simp⟩
  | json j =>
    unfold cql2QueryErrors at h
    rw [hc] at h
    simp only [] at h
    cases hp : E.parseJson j with
    | error e =>
      rw [hp] at h
      exact singleDetail_ok_shape _ _ _ h
    | ok ast =>
      rw [hp] at h
      simp only [] at h
      unfold cql2EvalCase at h
      cases he : E.evaluate ast data with
      | error e2 => rw [he] at h; simp at h
      | ok b =>
        rw [he] at h
        cases b with
        | false => exact singleDetail_ok_shape _ _ _ h
        | true =>
          simp only [Except.ok.injEq] at h
          subst h
          exact ⟨by simp, by simp⟩
  | other t =>
    unfold cql2QueryErrors at h
    rw [hc] at h
    exact singleDetail_ok_shape _ _ _ h

/-- The collected error list is bounded by the number of queries and
every entry points at some query's id. -/
theorem cql2CollectErrors_shape {Ast Inputs : Type} (E : Cql2Engine Ast Inputs)
    (data : Inputs) :
    ∀ (qs : List Cql2Query) (l : List ErrorDetail),
      cql2CollectErrors E data qs = .ok l →
      l.length ≤ qs.length ∧ ∀ d ∈ l, ∃ q ∈ qs, d.pointer = some q.id := by
  intro qs
  induction qs with
  | nil =>
    intro l h
    simp only [cql2CollectErrors, Except.ok.injEq] at h
    subst h
    simp
  | cons q rest ih =>
    intro l h
    unfold cql2CollectErrors at h
    cases hq : cql2QueryErrors E data q with
    | error e => rw [hq] at h; simp at h
    | ok es =>
      rw [hq] at h
      simp only [] at h
      cases hr : cql2CollectErrors E data rest with
      | error e => rw [hr] at h; simp at h
      | ok tail =>
        rw [hr] at h
        simp only [Except.ok.injEq] at h
        subst h
        have hhead := cql2QueryErrors_shape E data q es hq
        have htail := ih tail hr
        constructor
        · have hl1 := hhead.1
          have hl2 := htail.1
          simp only [List.length_append, List.length_cons]
          omega
        · intro d hd
          rcases List.mem_append.mp hd with hdl | hdr
          · exact ⟨q, by simp, hhead.2 d hdl⟩
          · obtain ⟨q2, hq2, hp2⟩ := htail.2 d hdr
            exact ⟨q2, by simp [hq2], hp2⟩

/-- C10 (confirmed): each declared query contributes at most one Error
Detail, with pointer equal to its id (an unparseable or unrecognized
expression is never also evaluated, a parsed one contributes only when
false); consequently a returned report carries at most as many Error
Details as declared queries, each pointing at one query's id. -/
theorem C10_at_most_one_detail_per_query {Ast Inputs : Type}
    (E : Cql2Engine Ast Inputs) (qs : List Cql2Query) (data : Inputs) :
    (∀ (q : Cql2Query) (es : List ErrorDetail),
      cql2QueryErrors E data q = .ok es →
      es.length ≤ 1 ∧ ∀ d ∈ es, d.pointer = some q.id) ∧
    (∀ r : ProblemDetails,
      Cql2Validator.validate_inputs E qs data = .ok (some r) →
      ∃ l, r.errors = some l ∧ l.length ≤ qs.length ∧
        ∀ d ∈ l, ∃ q ∈ qs, d.pointer = some q.id) := by
  constructor
  · intro q es h
    exact cql2QueryErrors_shape E data q es h
  · intro r h
    unfold Cql2Validator.validate_inputs at h
    cases hx : cql2CollectErrors E data qs with
    | error e => rw [hx] at h; simp at h
    | ok l =>
      rw [hx] at h
      cases l with
      | nil => simp at h
      | cons d ds =>
        simp only [] at h
        cases hB : BusinessRuleViolation (d :: ds) with
        | error e => rw [hB] at h; simp at h
        | ok pd =>
          rw [hB] at h
          simp only [Except.ok.injEq, Option.some.injEq] at h
          subst h
          have hfields := BusinessRuleViolation_ok_fields (d :: ds) pd hB
          have hshape := cql2CollectErrors_shape E data qs (d :: ds) hx
          exact ⟨d :: ds, hfields.2.2.2, hshape.1, hshape.2⟩

/-- Witness for C10 at a concrete run with one failing query. -/
theorem C10_at_most_one_detail_per_query_witness :
    Cql2Validator.validate_inputs sampleCql2Engine
      [⟨"q1", Cql2Value.text "nope", "m1"⟩] false = .ok (some sampleParseFailReport) ∧
    ∃ l, sampleParseFailReport.errors = some l ∧
      l.length ≤ ([⟨"q1", Cql2Value.text "nope", "m1"⟩] : List Cql2Query).length ∧
      ∀ d ∈ l, ∃ q ∈ ([⟨"q1", Cql2Value.text "nope", "m1"⟩] : List Cql2Query),
        d.pointer = some q.id :=
  ⟨rfl, (C10_at_most_one_detail_per_query sampleCql2Engine
    [⟨"q1", Cql2Value.text "nope", "m1"⟩] false).2 sampleParseFailReport rfl⟩

end AssertionsMate
